import Mathlib

/-!
# Verification of `medication_parser.py` (Clinical-notes repository)

Shallow embedding of the `MedicationParser` class. Python strings are
modelled as Lean `String`s (lists of characters); `str.lower()` is
modelled on the ASCII range by `pyLower`; `pattern in text` is modelled
by `containsSub`; `str.find` is modelled by `firstIndex` returning
`Option Nat` instead of `-1`; the `re.search` call on the fixed dose
pattern is modelled by a hand-rolled leftmost matcher `searchDose`
(the pattern has no backtracking interplay, see `matchDoseAt`);
a `KeyError` raised by a dict lookup is modelled with `Except String`.
-/

namespace MedicationParser

/-- ASCII decimal digit test, modelling the regex class for digits on
ASCII input (the parser lowercases text first, which fixes the case but
not the digits). -/
def isDigitC (c : Char) : Bool :=
  decide (48 ≤ c.toNat ∧ c.toNat ≤ 57)

/-- ASCII whitespace test, modelling the regex whitespace class on the
characters that occur in clinical notes. -/
def isSpaceC (c : Char) : Bool :=
  c == ' ' || c == '\t' || c == '\n' || c == '\r'

/-- ASCII lowercasing of one character, modelling Python `str.lower`
on the ASCII range. -/
def lowerChar (c : Char) : Char :=
  match c with
  | 'A' => 'a' | 'B' => 'b' | 'C' => 'c' | 'D' => 'd' | 'E' => 'e'
  | 'F' => 'f' | 'G' => 'g' | 'H' => 'h' | 'I' => 'i' | 'J' => 'j'
  | 'K' => 'k' | 'L' => 'l' | 'M' => 'm' | 'N' => 'n' | 'O' => 'o'
  | 'P' => 'p' | 'Q' => 'q' | 'R' => 'r' | 'S' => 's' | 'T' => 't'
  | 'U' => 'u' | 'V' => 'v' | 'W' => 'w' | 'X' => 'x' | 'Y' => 'y'
  | 'Z' => 'z'
  | c => c

/-- ASCII uppercasing of one character, modelling the first step of
Python `str.capitalize` on the ASCII range. -/
def upperChar (c : Char) : Char :=
  match c with
  | 'a' => 'A' | 'b' => 'B' | 'c' => 'C' | 'd' => 'D' | 'e' => 'E'
  | 'f' => 'F' | 'g' => 'G' | 'h' => 'H' | 'i' => 'I' | 'j' => 'J'
  | 'k' => 'K' | 'l' => 'L' | 'm' => 'M' | 'n' => 'N' | 'o' => 'O'
  | 'p' => 'P' | 'q' => 'Q' | 'r' => 'R' | 's' => 'S' | 't' => 'T'
  | 'u' => 'U' | 'v' => 'V' | 'w' => 'W' | 'x' => 'X' | 'y' => 'Y'
  | 'z' => 'Z'
  | c => c

/-- Python `text.lower()` (ASCII range). -/
def pyLower (s : String) : String :=
  ⟨s.data.map lowerChar⟩

/-- Python `s.capitalize()` (ASCII range): first character uppercased,
the rest lowercased. -/
def pyCapitalize (s : String) : String :=
  match s.data with
  | [] => ""
  | c :: t => ⟨upperChar c :: t.map lowerChar⟩

/-- `leadsL needle hay` holds when `needle` is an initial segment of
`hay` (character lists). -/
def leadsL : List Char → List Char → Bool
  | [], _ => true
  | _ :: _, [] => false
  | a :: as, b :: bs => a == b && leadsL as bs

/-- `containsL hay needle`: `needle` occurs contiguously in `hay`;
models Python `needle in hay` on character lists. -/
def containsL : List Char → List Char → Bool
  | [], needle => needle.isEmpty
  | c :: t, needle => leadsL needle (c :: t) || containsL t needle

/-- Python `needle in hay` for strings. -/
def containsSub (hay needle : String) : Bool :=
  containsL hay.data needle.data

/-- Python `hay.find(needle)`: index of the first occurrence, `none`
instead of `-1` when absent. -/
def firstIndex : List Char → List Char → Option Nat
  | [], needle => if leadsL needle [] then some 0 else none
  | c :: t, needle =>
    if leadsL needle (c :: t) then some 0
    else (firstIndex t needle).map (· + 1)

/-- Association-list lookup modelling a Python dict access
`d[k]` (which raises `KeyError` when the key is absent, hence
`Option`). -/
def lookupKey (k : String) : List (String × List String) → Option (List String)
  | [] => none
  | (k2, v) :: t => if k2 = k then some v else lookupKey k t

/-- Python `sep.join(parts)`. -/
def joinSep (sep : String) : List String → String
  | [] => ""
  | [x] => x
  | x :: y :: t => x ++ sep ++ joinSep sep (y :: t)

/-! ## The fixed tables of `MedicationParser` -/

/-- `FREQUENCY_PATTERNS` class attribute: canonical frequency category
to its surface phrases, in the dict's insertion order. Note that there
is no `"daily"` key. -/
def FREQUENCY_PATTERNS : List (String × List String) :=
  [("twice daily", ["bid", "twice daily", "twice a day", "2x daily"]),
   ("three times daily", ["tid", "three times daily", "3x daily"]),
   ("four times daily", ["qid", "four times daily", "4x daily"]),
   ("as needed", ["prn", "as needed", "as required"]),
   ("at bedtime", ["hs", "at bedtime", "at night", "qhs"])]

/-- `ROUTE_PATTERNS` class attribute: the Python source writes the
`"intravenous"` entry twice with identical value; in a dict literal the
second binding collapses onto the first, leaving this insertion
order. -/
def ROUTE_PATTERNS : List (String × List String) :=
  [("intravenous", ["iv", "intravenous", "intravenously"]),
   ("intramuscular", ["im", "intramuscular"]),
   ("subcutaneous", ["sc", "subq", "subcutaneous"]),
   ("topical", ["topical", "topically", "apply"])]

/-- `NEGATION_PATTERNS` class attribute. -/
def NEGATION_PATTERNS : List String :=
  ["negative for ", "none ", "never ", "stopped ",
   "discontinued ", "allergic to "]

/-- `KNOWN_MEDICATIONS` class attribute. -/
def KNOWN_MEDICATIONS : List String :=
  ["metformin", "lisinopril", "amlodipine", "omeprazole",
   "atorvastatin", "simvastatin", "levothyroxine", "metoprolol",
   "losartan", "gabapentin", "hydrochlorothiazide", "furosemide",
   "aspirin", "ibuprofen", "acetaminophen", "prednisone",
   "amoxicillin", "azithromycin", "ciprofloxacin", "insulin"]

/-- The local `check_order` list of `extract_frequency`. Its last entry
`"daily"` is not a key of `FREQUENCY_PATTERNS`. -/
def check_order : List String :=
  ["four times daily", "three times daily", "twice daily",
   "at bedtime", "as needed", "daily"]

/-! ## `extract_dose` and its regex

`DOSE_PATTERN` is a regex with a digit group, an optional dot, more
optional digits, optional whitespace and a unit alternation
`mg|mcg|g|ml|units?`. For this pattern greedy matching without
backtracking is complete: shortening the digit group leaves a digit in
front of the next element, which no later element can consume; skipping
the dot leaves a dot, which neither whitespace nor a unit starts with;
shortening the whitespace leaves whitespace, which no unit starts with.
So a greedy one-pass matcher per position is faithful to `re.search`. -/

/-- Greedily split off the leading digit run. -/
def takeDigits : List Char → List Char × List Char
  | [] => ([], [])
  | c :: t =>
    if isDigitC c then
      let p := takeDigits t
      (c :: p.1, p.2)
    else ([], c :: t)

/-- Greedily drop leading whitespace. -/
def dropSpaces : List Char → List Char
  | [] => []
  | c :: t => if isSpaceC c then dropSpaces t else c :: t

/-- The unit alternation `mg|mcg|g|ml|units?` of `DOSE_PATTERN`, tried
in the regex's order at the current position; returns the matched unit
text (regex group 2). -/
def matchUnit (cs : List Char) : Option (List Char) :=
  if leadsL "mg".data cs then some "mg".data
  else if leadsL "mcg".data cs then some "mcg".data
  else if leadsL "g".data cs then some "g".data
  else if leadsL "ml".data cs then some "ml".data
  else if leadsL "units".data cs then some "units".data
  else if leadsL "unit".data cs then some "unit".data
  else none

/-- The dose dictionary built by `extract_dose`: regex group 1 (the
numeric part, possibly with a dot) and group 2 (the unit). -/
structure Dose where
  value : String
  unit : String
deriving DecidableEq, Repr

/-- Attempt to match `DOSE_PATTERN` anchored at the head of `cs`. -/
def matchDoseAt (cs : List Char) : Option Dose :=
  let p1 := takeDigits cs
  if p1.1.isEmpty then none
  else
    let p2 := match p1.2 with
      | '.' :: t => (['.'], t)
      | r => (([] : List Char), r)
    let p3 := takeDigits p2.2
    let r4 := dropSpaces p3.2
    match matchUnit r4 with
    | some u => some ⟨⟨p1.1 ++ p2.1 ++ p3.1⟩, ⟨u⟩⟩
    | none => none

/-- `re.search(DOSE_PATTERN, text)`: leftmost match wins. -/
def searchDose : List Char → Option Dose
  | [] => none
  | c :: t =>
    match matchDoseAt (c :: t) with
    | some d => some d
    | none => searchDose t

/-- `extract_dose`: lowercase the text, return the first dose match as
a value/unit pair, or `none`. -/
def extract_dose (text : String) : Option Dose :=
  searchDose (pyLower text).data

/-! ## `extract_frequency`, `extract_route`, `find_medications`,
`is_negated` -/

/-- The loop of `extract_frequency` over `check_order`: each key is
looked up in `FREQUENCY_PATTERNS` (a lookup that raises `KeyError` for
the `"daily"` entry), then its surface phrases are tested for substring
containment in the lowered text. -/
def freqGo (tl : String) : List String → Except String (Option String)
  | [] => Except.ok none
  | k :: ks =>
    match lookupKey k FREQUENCY_PATTERNS with
    | none => Except.error ("KeyError: " ++ k)
    | some pats =>
      if pats.any (fun p => containsSub tl p) then Except.ok (some k)
      else freqGo tl ks

/-- `extract_frequency`. The Python function's final `return None` is
modelled by `Except.ok none`; the `KeyError` raised at the `"daily"`
entry of `check_order` is modelled by `Except.error`. -/
def extract_frequency (text : String) : Except String (Option String) :=
  freqGo (pyLower text) check_order

/-- The loop of `extract_route` over `ROUTE_PATTERNS` in insertion
order. -/
def routeGo (tl : String) : List (String × List String) → Option String
  | [] => none
  | (r, pats) :: t =>
    if pats.any (fun p => containsSub tl p) then some r
    else routeGo tl t

/-- `extract_route`. -/
def extract_route (text : String) : Option String :=
  routeGo (pyLower text) ROUTE_PATTERNS

/-- The accumulation loop of `find_medications` over
`KNOWN_MEDICATIONS`. -/
def findGo (tl : String) : List String → List String
  | [] => []
  | m :: t => if containsSub tl m then m :: findGo tl t else findGo tl t

/-- `find_medications`: the known medications occurring in the lowered
text, in vocabulary declaration order. -/
def find_medications (text : String) : List String :=
  findGo (pyLower text) KNOWN_MEDICATIONS

/-- `is_negated`: find the first occurrence of the lowered medication
in the lowered text; absent means not negated; otherwise test each
negation phrase against the up-to-50-character window before the
occurrence (Python slice `text_lower[max(0, pos - 50) : pos]`). -/
def is_negated (text medication : String) : Bool :=
  let tl := (pyLower text).data
  let ml := (pyLower medication).data
  match firstIndex tl ml with
  | none => false
  | some pos =>
    let ws := pos - 50
    let before := (tl.drop ws).take (pos - ws)
    NEGATION_PATTERNS.any (fun p => containsL before p.data)

/-! ## `parse` and `get_summary` -/

/-- One medication record built by `parse`: the dict with keys
`name`, `dose`, `frequency`, `route`. -/
structure MedRecord where
  name : String
  dose : Option Dose
  frequency : Option String
  route : Option String
deriving DecidableEq, Repr

/-- The loop of `parse` over the found medications. Each iteration
calls `extract_frequency` on the full text, so its `KeyError`
propagates out of `parse` from the first iteration. -/
def parseGo (text : String) : List String → Except String (List MedRecord)
  | [] => Except.ok []
  | m :: ms =>
    match extract_frequency text with
    | Except.error e => Except.error e
    | Except.ok f =>
      match parseGo text ms with
      | Except.error e => Except.error e
      | Except.ok rest =>
        Except.ok ({ name := m, dose := extract_dose text,
                     frequency := f, route := extract_route text } :: rest)

/-- The record list computed by `parse(text)`. -/
def parse (text : String) : Except String (List MedRecord) :=
  parseGo text (find_medications text)

/-- The mutable state of a `MedicationParser` instance:
`self.medications`. -/
structure ParserState where
  medications : List MedRecord
deriving DecidableEq, Repr

/-- `__init__`: `self.medications = []`. -/
def initState : ParserState :=
  ⟨[]⟩

/-- `parse` as a state transformer: on success the record list is
stored in `self.medications` and also returned; on an exception the
state is unchanged (the assignment is after the loop) and nothing is
returned. -/
def parseS (_s : ParserState) (text : String) :
    Except String (ParserState × List MedRecord) :=
  match parse text with
  | Except.error e => Except.error e
  | Except.ok ms => Except.ok (⟨ms⟩, ms)

/-- One line of `get_summary` for one record: capitalized name, then
dose value and unit concatenated, then route, then frequency, for the
fields that are present, joined by single spaces. -/
def summaryFor (m : MedRecord) : String :=
  joinSep " "
    ([pyCapitalize m.name] ++
     (match m.dose with | some d => [d.value ++ d.unit] | none => []) ++
     (match m.route with | some r => [r] | none => []) ++
     (match m.frequency with | some f => [f] | none => []))

/-- `get_summary`: the fixed sentence when no records are stored,
otherwise one line per record. -/
def get_summary (s : ParserState) : String :=
  if s.medications.isEmpty then "No medications found."
  else joinSep "\n" (s.medications.map summaryFor)

end MedicationParser

deriving instance DecidableEq for Except

open MedicationParser

/-! ## Helper lemmas -/

/-- Lowercasing never turns a character into a digit or a digit into a
non-digit. -/
theorem isDigitC_lowerChar (c : Char) : isDigitC (lowerChar c) = isDigitC c := by
  unfold lowerChar
  split <;> rfl

/-- A non-digit head character makes the anchored dose match fail. -/
theorem matchDoseAt_nondigit (c : Char) (t : List Char) (h : isDigitC c = false) :
    matchDoseAt (c :: t) = none := by
  simp [matchDoseAt, takeDigits, h]

/-- `re.search` skips over a block of non-digit characters: no match of
the dose pattern can start at a non-digit. -/
theorem searchDose_append_nondigits (l : List Char) (m : List Char)
    (h : ∀ c ∈ l, isDigitC c = false) :
    searchDose (l ++ m) = searchDose m := by
  induction l with
  | nil => rfl
  | cons c t ih =>
    have hc : isDigitC c = false := h c (List.mem_cons_self c t)
    have ht : ∀ x ∈ t, isDigitC x = false := fun x hx => h x (List.mem_cons_of_mem c hx)
    simp [searchDose, matchDoseAt_nondigit c _ hc, ih ht]

/-- The anchored dose match at the digits of `"500mg"` succeeds with
group 1 `"500"` and group 2 `"mg"`, whatever follows. -/
theorem matchDoseAt_500mg (rest : List Char) :
    matchDoseAt ('5' :: '0' :: '0' :: 'm' :: 'g' :: rest) = some ⟨"500", "mg"⟩ := by
  rfl

/-- Unfolding: a match at the head makes `firstIndex` return `0`. -/
theorem firstIndex_cons_pos (c : Char) (t needle : List Char)
    (hb : leadsL needle (c :: t) = true) :
    firstIndex (c :: t) needle = some 0 := by
  simp [firstIndex, hb]

/-- Unfolding: no match at the head shifts `firstIndex` by one. -/
theorem firstIndex_cons_neg (c : Char) (t needle : List Char)
    (hb : leadsL needle (c :: t) = false) :
    firstIndex (c :: t) needle = (firstIndex t needle).map (· + 1) := by
  simp [firstIndex, hb]

/-- `firstIndex` returns `none` exactly when the needle occurs at no
position of the haystack. -/
theorem firstIndex_eq_none (hay needle : List Char) :
    firstIndex hay needle = none ↔ ∀ i, leadsL needle (hay.drop i) = false := by
  induction hay with
  | nil =>
    constructor
    · intro h i
      simp only [firstIndex] at h
      cases hb : leadsL needle [] with
      | false => simpa using hb
      | true => simp [hb] at h
    · intro h
      have h0 := h 0
      simp only [List.drop_nil] at h0
      simp [firstIndex, h0]
  | cons c t ih =>
    cases hb : leadsL needle (c :: t) with
    | true =>
      rw [firstIndex_cons_pos c t needle hb]
      constructor
      · intro h
        exact absurd h (by simp)
      · intro h
        have h0 := h 0
        simp [hb] at h0
    | false =>
      rw [firstIndex_cons_neg c t needle hb, Option.map_eq_none']
      constructor
      · intro h i
        cases i with
        | zero => simpa using hb
        | succ j => exact (ih.mp h) j
      · intro h
        exact ih.mpr fun i => by simpa using h (i + 1)

/-- `firstIndex` returns `some i` exactly when the needle occurs at
position `i` and at no earlier position: it is Python `str.find`. -/
theorem firstIndex_eq_some (hay needle : List Char) (i : Nat) :
    firstIndex hay needle = some i ↔
      leadsL needle (hay.drop i) = true ∧ ∀ j, j < i → leadsL needle (hay.drop j) = false := by
  induction hay generalizing i with
  | nil =>
    cases hb : leadsL needle [] with
    | true =>
      have he : firstIndex [] needle = some 0 := by simp [firstIndex, hb]
      rw [he]
      constructor
      · intro h
        obtain rfl : i = 0 := by simpa using h.symm
        exact ⟨by simpa using hb, fun j hj => absurd hj (Nat.not_lt_zero j)⟩
      · rintro ⟨h1, h2⟩
        rcases Nat.eq_zero_or_pos i with rfl | hpos
        · rfl
        · have h0 := h2 0 hpos
          simp [hb] at h0
    | false =>
      have he : firstIndex [] needle = none := by simp [firstIndex, hb]
      rw [he]
      constructor
      · intro h
        exact absurd h (by simp)
      · rintro ⟨h1, h2⟩
        simp [hb] at h1
  | cons c t ih =>
    cases hb : leadsL needle (c :: t) with
    | true =>
      rw [firstIndex_cons_pos c t needle hb]
      constructor
      · intro h
        obtain rfl : i = 0 := by simpa using h.symm
        exact ⟨by simpa using hb, fun j hj => absurd hj (Nat.not_lt_zero j)⟩
      · rintro ⟨h1, h2⟩
        rcases Nat.eq_zero_or_pos i with rfl | hpos
        · rfl
        · have h0 := h2 0 hpos
          simp [hb] at h0
    | false =>
      rw [firstIndex_cons_neg c t needle hb]
      constructor
      · intro h
        rw [Option.map_eq_some'] at h
        obtain ⟨i', hi', rfl⟩ := h
        obtain ⟨h1, h2⟩ := (ih i').mp hi'
        refine ⟨by simpa using h1, ?_⟩
        intro j hj
        cases j with
        | zero => simpa using hb
        | succ j' => exact h2 j' (Nat.lt_of_succ_lt_succ hj)
      · rintro ⟨h1, h2⟩
        rcases Nat.eq_zero_or_pos i with rfl | hpos
        · simp [hb] at h1
        · obtain ⟨i', rfl⟩ := Nat.exists_eq_add_of_lt hpos
          rw [Option.map_eq_some']
          refine ⟨i', (ih i').mpr ⟨?_, ?_⟩, by omega⟩
          · simpa using h1
          · intro j hj
            have hj1 := h2 (j + 1) (by omega)
            simpa using hj1

/-- `freqGo` can only answer a category whose key is present in
`FREQUENCY_PATTERNS`: reaching an absent key raises instead of
answering. -/
theorem freqGo_ok_some (tl : String) (ks : List String) (k : String)
    (h : freqGo tl ks = Except.ok (some k)) :
    lookupKey k FREQUENCY_PATTERNS ≠ none := by
  induction ks with
  | nil => simp [freqGo] at h
  | cons k0 kt ih =>
    simp only [freqGo] at h
    cases hl : lookupKey k0 FREQUENCY_PATTERNS with
    | none =>
      rw [hl] at h
      exact absurd h (by simp)
    | some pats =>
      rw [hl] at h
      cases hp : pats.any (fun p => containsSub tl p) with
      | true =>
        simp only [hp, if_true] at h
        obtain rfl : k0 = k := by simpa using h
        rw [hl]
        simp
      | false =>
        simp only [hp] at h
        exact ih (by simpa using h)

/-! ## Claim theorems -/

/-- C1: `extract_dose` and `extract_route` do degrade to `none` on the
empty string, but `extract_frequency` does not return "not found" when
no frequency phrase is present: its `check_order` loop reaches the key
`"daily"`, which is absent from `FREQUENCY_PATTERNS`, so the dict
lookup raises `KeyError` instead of reaching the final `return None`. -/
theorem C1_extract_frequency_keyerror :
    extract_dose "" = none ∧ extract_route "" = none ∧
    extract_frequency "" = Except.error "KeyError: daily" := by
  decide

/-- C3: `parse "Metformin 500mg PO twice daily"` yields exactly one
record, named "metformin", with dose value "500" and unit "mg",
frequency "twice daily", and no route (PO is not in the route table
and no IV/IM/SC/topical phrase occurs). -/
theorem C3_parse_metformin_example :
    parse "Metformin 500mg PO twice daily" =
      Except.ok [{ name := "metformin", dose := some ⟨"500", "mg"⟩,
                   frequency := some "twice daily", route := none }] := by
  decide

/-- C4, counterexample: the text `"1500mg"` contains the substring
`"500mg"`, yet `extract_dose` returns value `"1500"`, not `"500"`: the
regex match at the leftmost digit swallows the leading `1`. -/
theorem C4_counterexample_1500mg :
    containsSub (pyLower "1500mg") "500mg" = true ∧
    extract_dose "1500mg" ≠ some ⟨"500", "mg"⟩ ∧
    extract_dose "1500mg" = some ⟨"1500", "mg"⟩ := by
  decide

/-- C4, amended: for every text of the form `p ++ "500mg" ++ s` where
`p` contains no digit character (so the first dose-like match starts at
the "500"), `extract_dose` returns value "500" and unit "mg" — whatever
dose-like substrings occur later in `s`, only the first match in the
text is used. -/
theorem C4_extract_dose_first_match (p s : String)
    (h : ∀ c ∈ p.data, isDigitC c = false) :
    extract_dose (p ++ "500mg" ++ s) = some ⟨"500", "mg"⟩ := by
  have hdata : (pyLower (p ++ "500mg" ++ s)).data =
      (p.data.map lowerChar) ++
        ('5' :: '0' :: '0' :: 'm' :: 'g' :: (s.data.map lowerChar)) := by
    simp [pyLower, String.data_append]
    all_goals decide
  have hmap : ∀ c ∈ p.data.map lowerChar, isDigitC c = false := by
    intro c hc
    obtain ⟨d, hd, rfl⟩ := List.mem_map.mp hc
    rw [isDigitC_lowerChar]
    exact h d hd
  rw [extract_dose, hdata, searchDose_append_nondigits _ _ hmap]
  simp [searchDose, matchDoseAt_500mg]

/-- C4, witness for the amended theorem at a concrete input with a
second dose-like substring after the first. -/
theorem C4_witness :
    (∀ c ∈ ("dose: " : String).data, isDigitC c = false) ∧
    extract_dose ("dose: " ++ "500mg" ++ " then 900ml") = some ⟨"500", "mg"⟩ :=
  ⟨by decide, C4_extract_dose_first_match "dose: " " then 900ml" (by decide)⟩

/-- C5, counterexample: the text `"four times daily and twice daily"`
contains both `"twice daily"` and `"daily"`, yet `extract_frequency`
returns `"four times daily"` — the earlier `check_order` category also
matches, so "returns twice daily" does not hold for every such text. -/
theorem C5_counterexample_four_times :
    containsSub (pyLower "four times daily and twice daily") "twice daily" = true ∧
    containsSub (pyLower "four times daily and twice daily") "daily" = true ∧
    extract_frequency "four times daily and twice daily" ≠ Except.ok (some "twice daily") ∧
    extract_frequency "four times daily and twice daily" = Except.ok (some "four times daily") := by
  decide

/-- C5, amended: for every text that contains `"twice daily"` (hence
also `"daily"`) and contains none of the six surface phrases of the two
higher-priority categories (`"qid"`, `"four times daily"`, `"4x daily"`,
`"tid"`, `"three times daily"`, `"3x daily"`), `extract_frequency`
returns `"twice daily"`; and for every text whatsoever it never returns
the generic `"daily"` (that category cannot even be reached: its lookup
raises). -/
theorem C5_twice_daily_priority (text : String)
    (h1 : containsSub (pyLower text) "twice daily" = true)
    (h2 : containsSub (pyLower text) "qid" = false)
    (h3 : containsSub (pyLower text) "four times daily" = false)
    (h4 : containsSub (pyLower text) "4x daily" = false)
    (h5 : containsSub (pyLower text) "tid" = false)
    (h6 : containsSub (pyLower text) "three times daily" = false)
    (h7 : containsSub (pyLower text) "3x daily" = false) :
    extract_frequency text = Except.ok (some "twice daily") ∧
    ∀ t, extract_frequency t ≠ Except.ok (some "daily") := by
  constructor
  · simp [extract_frequency, check_order, freqGo, lookupKey, FREQUENCY_PATTERNS,
      h1, h2, h3, h4, h5, h6, h7]
  · intro t ht
    exact absurd (by decide : lookupKey "daily" FREQUENCY_PATTERNS = none)
      (freqGo_ok_some (pyLower t) check_order "daily" ht)

/-- C5, witness for the amended theorem. -/
theorem C5_witness :
    extract_frequency "take twice daily" = Except.ok (some "twice daily") :=
  (C5_twice_daily_priority "take twice daily" (by decide) (by decide) (by decide)
    (by decide) (by decide) (by decide) (by decide)).1

/-- C10: every text containing the two-character sequence "iv" — in any
case and even inside an unrelated word — is assigned route
"intravenous": the intravenous entry is checked first and its phrase
"iv" is tested by bare substring containment on the lowered text. -/
theorem C10_route_iv_substring (text : String)
    (h : containsSub (pyLower text) "iv" = true) :
    extract_route text = some "intravenous" := by
  simp [extract_route, routeGo, ROUTE_PATTERNS, h]

/-- C10, witness: "given" contains "iv" inside an unrelated word and is
routed "intravenous". -/
theorem C10_witness :
    containsSub (pyLower "given") "iv" = true ∧
    extract_route "given" = some "intravenous" :=
  ⟨by decide, C10_route_iv_substring "given" (by decide)⟩

/-- Every record emitted by the `parse` loop carries the dose, route
and frequency computed from the full input text. -/
theorem parseGo_mem_fields (text : String) (ms : List String) :
    ∀ recs, parseGo text ms = Except.ok recs → ∀ r ∈ recs,
      r.dose = extract_dose text ∧ r.route = extract_route text ∧
      extract_frequency text = Except.ok r.frequency := by
  induction ms with
  | nil =>
    intro recs h r hr
    simp only [parseGo] at h
    obtain rfl : ([] : List MedRecord) = recs := by simpa using h
    simp at hr
  | cons m mt ih =>
    intro recs h r hr
    simp only [parseGo] at h
    cases hf : extract_frequency text with
    | error e =>
      rw [hf] at h
      exact absurd h (by simp)
    | ok f =>
      rw [hf] at h
      cases hg : parseGo text mt with
      | error e =>
        rw [hg] at h
        exact absurd h (by simp)
      | ok rest =>
        rw [hg] at h
        obtain rfl :
            ({ name := m, dose := extract_dose text, frequency := f,
               route := extract_route text } : MedRecord) :: rest = recs := by
          simpa using h
        rcases List.mem_cons.mp hr with rfl | hr2
        · exact ⟨rfl, rfl, rfl⟩
        · obtain ⟨a, b, c⟩ := ih rest hg r hr2
          exact ⟨a, b, hf ▸ c⟩

/-- C2: any two records produced by the same `parse` call agree on
dose, frequency and route: all three are derived from the full input
text, not from the individual medication occurrence. -/
theorem C2_fields_uniform (text : String) (recs : List MedRecord)
    (h : parse text = Except.ok recs) (r1 : MedRecord) (h1 : r1 ∈ recs)
    (r2 : MedRecord) (h2 : r2 ∈ recs) :
    r1.dose = r2.dose ∧ r1.frequency = r2.frequency ∧ r1.route = r2.route := by
  obtain ⟨d1, u1, f1⟩ := parseGo_mem_fields text (find_medications text) recs h r1 h1
  obtain ⟨d2, u2, f2⟩ := parseGo_mem_fields text (find_medications text) recs h r2 h2
  refine ⟨d1.trans d2.symm, ?_, u1.trans u2.symm⟩
  have hf := f1.symm.trans f2
  simpa using hf

/-- C2, witness: a parse call that produces two records, which agree on
dose, frequency and route. -/
theorem C2_witness :
    parse "metformin lisinopril twice daily" = Except.ok
      [{ name := "metformin", dose := none, frequency := some "twice daily", route := none },
       { name := "lisinopril", dose := none, frequency := some "twice daily", route := none }] ∧
    (({ name := "metformin", dose := none, frequency := some "twice daily",
        route := none } : MedRecord).dose =
      ({ name := "lisinopril", dose := none, frequency := some "twice daily",
         route := none } : MedRecord).dose ∧
     ({ name := "metformin", dose := none, frequency := some "twice daily",
        route := none } : MedRecord).frequency =
      ({ name := "lisinopril", dose := none, frequency := some "twice daily",
         route := none } : MedRecord).frequency ∧
     ({ name := "metformin", dose := none, frequency := some "twice daily",
        route := none } : MedRecord).route =
      ({ name := "lisinopril", dose := none, frequency := some "twice daily",
         route := none } : MedRecord).route) :=
  by
  refine ⟨by decide, ?_⟩
  exact C2_fields_uniform "metformin lisinopril twice daily"
    [⟨"metformin", none, some "twice daily", none⟩,
     ⟨"lisinopril", none, some "twice daily", none⟩]
    (by decide) _ (by decide) _ (by decide)

/-- C6: `is_negated` returns false when the (lowered) medication occurs
nowhere in the lowered text; and at the least occurrence position `i`
it returns true exactly when some fixed negation phrase occurs in the
up-to-50-character window before `i` (Python slice
`text_lower[max(0, i - 50) : i]`, here `drop (i - 50)` then
`take (i - (i - 50))` with truncated subtraction). -/
theorem C6_is_negated_spec (text medication : String) :
    ((∀ i, leadsL (pyLower medication).data ((pyLower text).data.drop i) = false) →
        is_negated text medication = false) ∧
    (∀ i, leadsL (pyLower medication).data ((pyLower text).data.drop i) = true →
        (∀ j, j < i → leadsL (pyLower medication).data ((pyLower text).data.drop j) = false) →
        (is_negated text medication = true ↔
          ∃ p ∈ NEGATION_PATTERNS,
            containsL (((pyLower text).data.drop (i - 50)).take (i - (i - 50)))
              p.data = true)) := by
  constructor
  · intro h
    have hn : firstIndex (pyLower text).data (pyLower medication).data = none :=
      (firstIndex_eq_none _ _).mpr h
    simp [is_negated, hn]
  · intro i h1 h2
    have hs : firstIndex (pyLower text).data (pyLower medication).data = some i :=
      (firstIndex_eq_some _ _ _).mpr ⟨h1, h2⟩
    simp [is_negated, hs, List.any_eq_true]

/-- C6, witness: "Metformin" first occurs at position 8 of
"stopped metformin"; the window before it contains the negation phrase
"stopped ", so the mention is negated. -/
theorem C6_witness :
    is_negated "stopped metformin" "Metformin" = true :=
  ((C6_is_negated_spec "stopped metformin" "Metformin").2 8 (by decide)
      (by decide)).mpr ⟨"stopped ", by decide, by decide⟩

/-- The accumulation loop of `find_medications` is a filter of the
vocabulary list. -/
theorem findGo_eq_filter (tl : String) (l : List String) :
    findGo tl l = l.filter (fun m => containsSub tl m) := by
  induction l with
  | nil => rfl
  | cons m t ih =>
    cases hc : containsSub tl m with
    | true => simp [findGo, hc, ih, List.filter_cons]
    | false => simp [findGo, hc, ih, List.filter_cons]

/-- C7: the worked example returns exactly
`["metformin", "lisinopril"]`; in general the result is a subsequence
of `KNOWN_MEDICATIONS` (hence in vocabulary declaration order, with at
most one entry per name since the vocabulary has no duplicates), and a
name is listed exactly when it is a vocabulary name occurring in the
lowered text. -/
theorem C7_find_medications_spec :
    find_medications "Metformin 500mg and Lisinopril 10mg" = ["metformin", "lisinopril"] ∧
    ∀ text, List.Sublist (find_medications text) KNOWN_MEDICATIONS ∧
      (find_medications text).Nodup ∧
      ∀ m, m ∈ find_medications text ↔
        (m ∈ KNOWN_MEDICATIONS ∧ containsSub (pyLower text) m = true) := by
  refine ⟨by decide, ?_⟩
  intro text
  rw [find_medications, findGo_eq_filter]
  refine ⟨List.filter_sublist _, ?_, ?_⟩
  · exact List.Nodup.filter _ (by decide : KNOWN_MEDICATIONS.Nodup)
  · intro m
    simp [List.mem_filter]

/-- C7, witness: the membership characterisation applied at the worked
example. -/
theorem C7_witness :
    "metformin" ∈ find_medications "Metformin 500mg and Lisinopril 10mg" :=
  ((C7_find_medications_spec.2 "Metformin 500mg and Lisinopril 10mg").2.2
      "metformin").mpr ⟨by decide, by decide⟩

/-- C8: `parse` is idempotent: the state left by a first call does not
influence a second call on the same text, which returns the same
record list (the code recomputes everything from the text and only
overwrites `self.medications`). -/
theorem C8_parse_idempotent (st st2 : ParserState) (text : String)
    (r : List MedRecord) (h : parseS st text = Except.ok (st2, r)) :
    parseS st2 text = Except.ok (st2, r) :=
  h

/-- C8, witness: a successful first call and the identical second
call. -/
theorem C8_witness :
    parseS initState "metformin twice daily" =
      Except.ok (ParserState.mk [⟨"metformin", none, some "twice daily", none⟩],
                 [⟨"metformin", none, some "twice daily", none⟩]) ∧
    parseS (ParserState.mk [⟨"metformin", none, some "twice daily", none⟩])
        "metformin twice daily" =
      Except.ok (ParserState.mk [⟨"metformin", none, some "twice daily", none⟩],
                 [⟨"metformin", none, some "twice daily", none⟩]) :=
  ⟨by decide, C8_parse_idempotent initState _ "metformin twice daily" _ (by decide)⟩

/-- C9: `get_summary` returns exactly "No medications found." on the
freshly initialised state, and after any `parse` call whose text
contains no known medication (so the stored record list is empty). -/
theorem C9_summary_no_medications (st st2 : ParserState) (text : String)
    (r : List MedRecord) (h1 : parseS st text = Except.ok (st2, r))
    (h2 : find_medications text = []) :
    get_summary initState = "No medications found." ∧
    get_summary st2 = "No medications found." := by
  have hp : parse text = Except.ok [] := by
    rw [parse, h2]
    rfl
  simp [parseS, hp] at h1
  obtain ⟨rfl, rfl⟩ := h1
  exact ⟨rfl, rfl⟩

/-- C9, witness: parsing "hello" from a non-empty prior state empties
the stored list and the summary is the fixed sentence. -/
theorem C9_witness :
    parseS (ParserState.mk [⟨"aspirin", none, none, none⟩]) "hello" =
      Except.ok (⟨[]⟩, []) ∧
    find_medications "hello" = [] ∧
    (get_summary initState = "No medications found." ∧
     get_summary (⟨[]⟩ : ParserState) = "No medications found.") :=
  ⟨by decide, by decide,
   C9_summary_no_medications (ParserState.mk [⟨"aspirin", none, none, none⟩])
     (⟨[]⟩ : ParserState) "hello" [] (by decide) (by decide)⟩

